import Mathlib

/-!
Verification of the schema converters of zod-to-vertex-schema.

The repository converts between Zod validation schemas (the "source" model)
and Vertex AI / Gemini function-calling schemas (the "target" model,
`VertexSchema`).  The reverse transformer `vertexSchemaToZod`
(src/vertex-schema-to-zod.ts) is embedded below directly from its source.
The forward transformer `zodToVertexSchema` (src/zod-to-vertex-schema.ts) is
not present under src/ (only its test suite is), so it is modelled from the
specification, section 4.1.

Zod schemas are embedded as the inductive `ZodType`; their runtime validation
behaviour (`safeParse` acceptance) is embedded as the executable predicate
`accepts` over a JSON-value type `JValue` (extended with `undef` so that a
missing object property parses like JavaScript `undefined`).  JavaScript
numbers are modelled as rationals, which covers every numeric literal the
code and tests manipulate.
-/

/-- The `SchemaType` enum of src/vertex-schema.ts. -/
inductive SchemaType where
  | STRING
  | NUMBER
  | INTEGER
  | BOOLEAN
  | ARRAY
  | OBJECT
deriving DecidableEq, BEq, Repr

/-- The `VertexSchema` interface of src/vertex-schema.ts as a single record
(an inductive, since the type is recursive through `items`, `properties` and
`anyOf`).  Field order follows the declaration.  An absent TypeScript field
is `none`.  `properties` is an association list in the object's own key
(insertion) order, matching JavaScript object-key iteration order.  The
`example` field (type `unknown`) is omitted: neither transformer nor any
claim reads it. -/
inductive VertexSchema where
  | mk (type : Option SchemaType) (format : Option String)
      (description : Option String) (nullable : Option Bool)
      (items : Option VertexSchema) (enum : Option (List String))
      (properties : Option (List (String × VertexSchema)))
      (required : Option (List String))
      (propertyOrdering : Option (List String))
      (anyOf : Option (List VertexSchema))
      (minItems : Option Int) (maxItems : Option Int)
      (minimum : Option Rat) (maximum : Option Rat)

namespace VertexSchema

/-- Field accessor for `type`. -/
@[simp] def type : VertexSchema → Option SchemaType
  | mk t _ _ _ _ _ _ _ _ _ _ _ _ _ => t

/-- Field accessor for `format`. -/
@[simp] def format : VertexSchema → Option String
  | mk _ f _ _ _ _ _ _ _ _ _ _ _ _ => f

/-- Field accessor for `description`. -/
@[simp] def description : VertexSchema → Option String
  | mk _ _ d _ _ _ _ _ _ _ _ _ _ _ => d

/-- Field accessor for `nullable`. -/
@[simp] def nullable : VertexSchema → Option Bool
  | mk _ _ _ n _ _ _ _ _ _ _ _ _ _ => n

/-- Field accessor for `items`. -/
@[simp] def items : VertexSchema → Option VertexSchema
  | mk _ _ _ _ i _ _ _ _ _ _ _ _ _ => i

/-- Field accessor for `enum`. -/
@[simp] def enum : VertexSchema → Option (List String)
  | mk _ _ _ _ _ e _ _ _ _ _ _ _ _ => e

/-- Field accessor for `properties`. -/
@[simp] def properties : VertexSchema → Option (List (String × VertexSchema))
  | mk _ _ _ _ _ _ p _ _ _ _ _ _ _ => p

/-- Field accessor for `required`. -/
@[simp] def required : VertexSchema → Option (List String)
  | mk _ _ _ _ _ _ _ r _ _ _ _ _ _ => r

/-- Field accessor for `propertyOrdering`. -/
@[simp] def propertyOrdering : VertexSchema → Option (List String)
  | mk _ _ _ _ _ _ _ _ o _ _ _ _ _ => o

/-- Field accessor for `anyOf`. -/
@[simp] def anyOf : VertexSchema → Option (List VertexSchema)
  | mk _ _ _ _ _ _ _ _ _ a _ _ _ _ => a

/-- Field accessor for `minItems`. -/
@[simp] def minItems : VertexSchema → Option Int
  | mk _ _ _ _ _ _ _ _ _ _ m _ _ _ => m

/-- Field accessor for `maxItems`. -/
@[simp] def maxItems : VertexSchema → Option Int
  | mk _ _ _ _ _ _ _ _ _ _ _ m _ _ => m

/-- Field accessor for `minimum`. -/
@[simp] def minimum : VertexSchema → Option Rat
  | mk _ _ _ _ _ _ _ _ _ _ _ _ m _ => m

/-- Field accessor for `maximum`. -/
@[simp] def maximum : VertexSchema → Option Rat
  | mk _ _ _ _ _ _ _ _ _ _ _ _ _ m => m

/-- The record with every field absent. -/
def empty : VertexSchema :=
  mk none none none none none none none none none none none none none none

/-- Replace the `description` field. -/
@[simp] def setDescription : VertexSchema → Option String → VertexSchema
  | mk t f _ n i e p r o a mi ma lo hi, d => mk t f d n i e p r o a mi ma lo hi

/-- Replace the `nullable` field. -/
@[simp] def setNullable : VertexSchema → Option Bool → VertexSchema
  | mk t f d _ i e p r o a mi ma lo hi, n => mk t f d n i e p r o a mi ma lo hi

/-- Replace the `enum` field. -/
@[simp] def setEnum : VertexSchema → Option (List String) → VertexSchema
  | mk t f d n i _ p r o a mi ma lo hi, e => mk t f d n i e p r o a mi ma lo hi

/-- Replace the `propertyOrdering` field. -/
@[simp] def setPropertyOrdering : VertexSchema → Option (List String) → VertexSchema
  | mk t f d n i e p r _ a mi ma lo hi, o => mk t f d n i e p r o a mi ma lo hi

end VertexSchema

/-- A check attached to a Zod string schema: `z.string().datetime()`,
`z.string().date()`, or any other string check (regex, email, length, ...),
which the forward transformer must reject by name. -/
inductive StrCheck where
  | datetime
  | date
  | other (kind : String)
deriving DecidableEq, BEq, Repr

/-- The Zod schema AST: the subset of Zod the repository constructs or
consumes.  It serves both directions: the reverse transformer produces these
nodes, and the forward transformer consumes them.  `zoptional`, `znullable`
and `zdescribe` model the wrapper/metadata layers `.optional()`,
`.nullable()` and `.describe(...)`; `zarray` carries the `minLength`,
`maxLength` and `exactLength` checks; `zliteralNum`, `zlazy` and `zother`
exist only as forward-transformer inputs that must raise errors (`zother`
carries the Zod type name, e.g. "ZodBigInt"). -/
inductive ZodType where
  | zstring (checks : List StrCheck)
  | znumber (isInt : Bool) (minimum maximum : Option Rat)
  | zboolean
  | zenum (values : List String)
  | zliteral (value : String)
  | zliteralNum (value : Rat)
  | zarray (element : ZodType) (minLength maxLength exactLength : Option Int)
  | zobject (fields : List (String × ZodType))
  | zunion (options : List ZodType)
  | zdiscriminatedUnion (discriminator : String) (options : List ZodType)
  | znull
  | zoptional (inner : ZodType)
  | znullable (inner : ZodType)
  | zdescribe (description : String) (inner : ZodType)
  | zlazy
  | zother (typeName : String)

/-- JSON-like runtime values fed to a reconstructed validator.  `undef`
stands for JavaScript `undefined`: it is what an absent object property
parses as, and what `zoptional` accepts.  Numbers are rationals. -/
inductive JValue where
  | null
  | undef
  | bool (b : Bool)
  | num (q : Rat)
  | str (s : String)
  | arr (elems : List JValue)
  | obj (fields : List (String × JValue))

/-- Property lookup on a JSON object; an absent key yields `undef`, as
JavaScript property access yields `undefined`. -/
def lookupJ : List (String × JValue) → String → JValue
  | [], _ => JValue.undef
  | (k, v) :: rest, key => if k = key then v else lookupJ rest key

/-- Consume exactly `n` ASCII digits from the front of a character list. -/
def consumeDigits : Nat → List Char → Option (List Char)
  | 0, cs => some cs
  | _ + 1, [] => none
  | n + 1, c :: cs => if c.isDigit then consumeDigits n cs else none

/-- Consume one expected character from the front of a character list. -/
def consumeChar (ch : Char) : List Char → Option (List Char)
  | [] => none
  | c :: cs => if c = ch then some cs else none

/-- Accept one or more ASCII digits followed by a final Z. -/
def digitsThenZ : List Char → Bool
  | [] => false
  | [_] => false
  | c :: cs => c.isDigit && moreDigitsThenZ cs
where
  /-- Accept zero or more digits then a final Z. -/
  moreDigitsThenZ : List Char → Bool
  | [] => false
  | [c] => c = 'Z'
  | c :: cs => c.isDigit && moreDigitsThenZ cs

/-- Accept the tail after the seconds field of a datetime: either a final Z
or a dot, one or more fractional digits and a final Z. -/
def datetimeTail : List Char → Bool
  | [c] => c = 'Z'
  | c :: cs => c = '.' && digitsThenZ cs
  | [] => false

/-- Modelled from the zod library (not part of this repository): the default
`z.string().datetime()` validation of Zod v3, the regular expression
`^\d-d-dTd:d:d(.d+)?Z$` with four year digits and two digits in each other
field.  A plain UTC ISO-8601 datetime such as `2024-01-15T10:30:00Z`
matches; strings without that shape do not. -/
def isDatetimeString (s : String) : Bool :=
  match (((((((((consumeDigits 4 s.toList).bind
      (consumeChar ('-'))).bind
      (consumeDigits 2)).bind
      (consumeChar ('-'))).bind
      (consumeDigits 2)).bind
      (consumeChar ('T'))).bind
      (consumeDigits 2)).bind
      (consumeChar (':'))).bind
      (consumeDigits 2)).bind
      (consumeChar (':')) with
  | none => false
  | some rest =>
    match consumeDigits 2 rest with
    | none => false
    | some tail => datetimeTail tail

/-- Modelled from the zod library (not part of this repository): the
`z.string().date()` check, shape `^\d-d-d$`.  No claim depends on its exact
acceptance set; it only appears as a forward-transformer input. -/
def isDateString (s : String) : Bool :=
  match ((((consumeDigits 4 s.toList).bind
      (consumeChar ('-'))).bind
      (consumeDigits 2)).bind
      (consumeChar ('-'))) with
  | none => false
  | some rest =>
    match consumeDigits 2 rest with
    | none => false
    | some tail => tail.isEmpty

/-- Whether a string satisfies one Zod string check.  Checks the repository
never reconstructs (`other`) accept nothing; no claim evaluates them. -/
def strCheckOk (s : String) : StrCheck → Bool
  | StrCheck.datetime => isDatetimeString s
  | StrCheck.date => isDateString s
  | StrCheck.other _ => false

mutual

/-- Zod `safeParse` acceptance, embedded over `ZodType` and `JValue`:
`accepts t v = true` iff the Zod schema `t` successfully parses `v`.
Objects check each declared field against the looked-up value (an absent key
looks up as `undef`, which only `zoptional` accepts) and ignore unknown
keys, as `z.object` strips them.  A discriminated union parses like a plain
union here; the repository never reconstructs one, so no claim depends on
that refinement.  `zlazy` and `zother` accept nothing: they exist only as
forward-transformer inputs that raise errors. -/
def accepts : ZodType → JValue → Bool
  | ZodType.zstring checks, v =>
    match v with
    | JValue.str s => checks.all (strCheckOk s)
    | _ => false
  | ZodType.znumber isInt lo hi, v =>
    match v with
    | JValue.num q =>
      (!isInt || q.den == 1)
        && (match lo with | some m => decide (m ≤ q) | none => true)
        && (match hi with | some m => decide (q ≤ m) | none => true)
    | _ => false
  | ZodType.zboolean, v =>
    match v with
    | JValue.bool _ => true
    | _ => false
  | ZodType.zenum values, v =>
    match v with
    | JValue.str s => values.contains s
    | _ => false
  | ZodType.zliteral value, v =>
    match v with
    | JValue.str s => s == value
    | _ => false
  | ZodType.zliteralNum value, v =>
    match v with
    | JValue.num q => q == value
    | _ => false
  | ZodType.zarray el lo hi exact, v =>
    match v with
    | JValue.arr xs =>
      xs.all (fun x => accepts el x)
        && (match lo with | some m => decide (m ≤ (xs.length : Int)) | none => true)
        && (match hi with | some m => decide ((xs.length : Int) ≤ m) | none => true)
        && (match exact with | some m => decide ((xs.length : Int) = m) | none => true)
    | _ => false
  | ZodType.zobject fields, v =>
    match v with
    | JValue.obj m => acceptsFields fields m
    | _ => false
  | ZodType.zunion options, v => acceptsAny options v
  | ZodType.zdiscriminatedUnion _ options, v => acceptsAny options v
  | ZodType.znull, v =>
    match v with
    | JValue.null => true
    | _ => false
  | ZodType.zoptional t, v =>
    match v with
    | JValue.undef => true
    | w => accepts t w
  | ZodType.znullable t, v =>
    match v with
    | JValue.null => true
    | w => accepts t w
  | ZodType.zdescribe _ t, v => accepts t v
  | ZodType.zlazy, _ => false
  | ZodType.zother _, _ => false

/-- Acceptance by some member of a list of Zod schemas (union semantics). -/
def acceptsAny : List ZodType → JValue → Bool
  | [], _ => false
  | t :: ts, v => accepts t v || acceptsAny ts v

/-- Acceptance of an object value by each declared field of an object
schema, looking each key up in the value (absent keys parse as `undef`). -/
def acceptsFields : List (String × ZodType) → List (String × JValue) → Bool
  | [], _ => true
  | (k, t) :: fs, m => accepts t (lookupJ m k) && acceptsFields fs m

end

/-- Error message of `makeArrayZod` for an ARRAY schema without `items`
(src/vertex-schema-to-zod.ts line 125). -/
def arrayItemsErrorMsg : String := "ARRAY type schema must have 'items'"

/-- Error message of the `vertexSchemaToZod` default branch for a schema
with no `anyOf` and no `type` (src/vertex-schema-to-zod.ts line 39); the
interpolated `schema.type` prints as `undefined` there, the only value that
reaches the branch. -/
def missingTypeErrorMsg : String := "Unsupported or missing schema.type: undefined"

/-- Embeds `applyNullable` of src/vertex-schema-to-zod.ts: attach
`.nullable()` iff `schema.nullable` is truthy, i.e. `some true` (absent and
`false` are falsy). -/
def applyNullable (zodSchema : ZodType) (schema : VertexSchema) : ZodType :=
  if schema.nullable = some true then ZodType.znullable zodSchema else zodSchema

/-- Embeds the `if (schema.description) out = out.describe(...)` lines of
src/vertex-schema-to-zod.ts: attach the description iff it is truthy (a
present, non-empty string). -/
def describeIf (d : Option String) (t : ZodType) : ZodType :=
  match d with
  | some txt => if txt = "" then t else ZodType.zdescribe txt t
  | none => t

/-- The value `makeStringZod` of src/vertex-schema-to-zod.ts builds before
its final `applyNullable`: an enum of more than one value becomes `z.enum`,
exactly one value becomes `z.literal` of its first element, otherwise a
plain `z.string()` with `.datetime()` iff `format === 'date-time'`, each
with the description applied when truthy.  A present-but-empty enum array
is truthy in JavaScript but fails both length tests, so it falls through to
the plain-string branch.  Every branch of the source function returns
`applyNullable(out, schema)`, so that common final step is hoisted into
`makeStringZod` below. -/
def stringZodBody (schema : VertexSchema) : ZodType :=
  match schema.enum with
  | some maybeEnum =>
    if maybeEnum.length > 1 then
      describeIf schema.description (ZodType.zenum maybeEnum)
    else if maybeEnum.length = 1 then
      describeIf schema.description (ZodType.zliteral (maybeEnum.headD ""))
    else
      describeIf schema.description
        (ZodType.zstring (if schema.format = some ("date-time") then [StrCheck.datetime] else []))
  | none =>
    describeIf schema.description
      (ZodType.zstring (if schema.format = some ("date-time") then [StrCheck.datetime] else []))

/-- Embeds `makeStringZod` of src/vertex-schema-to-zod.ts (see
`stringZodBody`). -/
def makeStringZod (schema : VertexSchema) : ZodType :=
  applyNullable (stringZodBody schema) schema

/-- The value `makeNumberZod` of src/vertex-schema-to-zod.ts builds before
its final `applyNullable`: `z.number()`, `.int()` iff the type is INTEGER,
`.min`/`.max` iff `minimum`/`maximum` are present numbers, then the
description when truthy. -/
def numberZodBody (schema : VertexSchema) : ZodType :=
  describeIf schema.description
    (ZodType.znumber (schema.type == some SchemaType.INTEGER) schema.minimum schema.maximum)

/-- Embeds `makeNumberZod` of src/vertex-schema-to-zod.ts (see
`numberZodBody`). -/
def makeNumberZod (schema : VertexSchema) : ZodType :=
  applyNullable (numberZodBody schema) schema

/-- Embeds `makeBooleanZod` of src/vertex-schema-to-zod.ts. -/
def makeBooleanZod (schema : VertexSchema) : ZodType :=
  applyNullable (describeIf schema.description ZodType.zboolean) schema

mutual

/-- Embeds `vertexSchemaToZod` of src/vertex-schema-to-zod.ts.  A present
non-empty `anyOf` takes precedence and becomes `z.union` over the
recursively converted branches in order, with description then nullable
applied to the union; otherwise dispatch on `type` (STRING, NUMBER, INTEGER
and BOOLEAN through the `make...Zod` helpers above; the recursive ARRAY and
OBJECT helpers `makeArrayZod` and `makeObjectZod` are inlined here so the
recursion stays structural).  ARRAY without `items`, or a missing `type`
with no union, throws.  The full record is rebound as `schema` so the
helpers receive the same argument as in the source. -/
def vertexSchemaToZod : VertexSchema → Except String ZodType
  | VertexSchema.mk ty fmt desc nul items en props req ord anyOf mnI mxI lo hi =>
    let schema := VertexSchema.mk ty fmt desc nul items en props req ord anyOf mnI mxI lo hi
    match anyOf with
    | some (b :: bs) => do
        let unionVariants ← revList (b :: bs)
        pure (applyNullable (describeIf desc (ZodType.zunion unionVariants)) schema)
    | _ =>
      match ty with
      | some SchemaType.STRING => pure (makeStringZod schema)
      | some SchemaType.NUMBER => pure (makeNumberZod schema)
      | some SchemaType.INTEGER => pure (makeNumberZod schema)
      | some SchemaType.BOOLEAN => pure (makeBooleanZod schema)
      | some SchemaType.ARRAY =>
        match items with
        | none => throw arrayItemsErrorMsg
        | some it => do
            let elementZod ← vertexSchemaToZod it
            pure (applyNullable (describeIf desc (ZodType.zarray elementZod mnI mxI none)) schema)
      | some SchemaType.OBJECT =>
        match props with
        | some ps => do
            let shape ← revProps ps (req.getD [])
            pure (applyNullable (describeIf desc (ZodType.zobject shape)) schema)
        | none => pure (applyNullable (describeIf desc (ZodType.zobject [])) schema)
      | none => throw missingTypeErrorMsg

/-- Converts the branches of an `anyOf` in order; the `schema.anyOf.map`
call of the source, with error propagation. -/
def revList : List VertexSchema → Except String (List ZodType)
  | [] => pure []
  | s :: ss => do
      let t ← vertexSchemaToZod s
      let ts ← revList ss
      pure (t :: ts)

/-- Converts object properties in the mapping's own key order; the key loop
of `makeObjectZod`: each value is converted, then wrapped in `.optional()`
iff its key is not in `required`. -/
def revProps : List (String × VertexSchema) → List String → Except String (List (String × ZodType))
  | [], _ => pure []
  | (key, propertySchema) :: rest, required => do
      let zodField ← vertexSchemaToZod propertySchema
      let restFields ← revProps rest required
      pure ((key, if required.contains key then zodField else ZodType.zoptional zodField) :: restFields)

end

mutual

/-- Modelled from the spec (section 4.2 / claim C3): the set of nodes the
reverse traversal can visit that trigger a hard failure.  A node is bad when
(with no non-empty `anyOf` taking precedence) it is an ARRAY without
`items`, or has no type at all; otherwise badness comes from a child the
traversal recurses into: a branch of a non-empty `anyOf`, the `items` of an
ARRAY, or a property value of an OBJECT. -/
def hasBad : VertexSchema → Bool
  | VertexSchema.mk ty _ _ _ items _ props _ _ anyOf _ _ _ _ =>
    match anyOf with
    | some (b :: bs) => hasBadList (b :: bs)
    | _ =>
      match ty with
      | some SchemaType.ARRAY =>
        match items with
        | some it => hasBad it
        | none => true
      | some SchemaType.OBJECT =>
        match props with
        | some ps => hasBadProps ps
        | none => false
      | none => true
      | _ => false

/-- Badness of some member of an `anyOf` list. -/
def hasBadList : List VertexSchema → Bool
  | [] => false
  | s :: ss => hasBad s || hasBadList ss

/-- Badness of some property value of an object. -/
def hasBadProps : List (String × VertexSchema) → Bool
  | [] => false
  | (_, v) :: ps => hasBad v || hasBadProps ps

end

/-- Modelled from the spec: whether a source field's type is wrapped in an
optional modifier (section 4.1 step 10: a field is required iff NOT so
wrapped; section 9: only the final optional/nullable flags matter, not the
wrapper order, so the test peels `.nullable()` and `.describe(...)`
layers). -/
def hasOptionalWrapper : ZodType → Bool
  | ZodType.zoptional _ => true
  | ZodType.znullable t => hasOptionalWrapper t
  | ZodType.zdescribe _ t => hasOptionalWrapper t
  | _ => false

/-- Modelled from the spec: forward error for a non-string literal (section
4.1 step 8; message text from the forward test suite). -/
def numberLiteralErrorMsg : String := "Unsupported literal type. Gemini doesn't support number literals."

/-- Modelled from the spec: forward error for a lazy/self-referential
schema (section 4.1 step 13: fail naming the recursive-schema
limitation). -/
def lazyErrorMsg : String := "Recursive schemas are not supported"

/-- Modelled from the spec: translate the checks of a Zod string to the
target `format` field (section 4.1 step 4): a date-time check gives
`format="date-time"`, a date check gives `format="date"`, and any other
check fails naming the check kind (message text from the forward test
suite).  Checks are scanned in order with the later of date/date-time
winning; no claim exercises a string carrying both. -/
def checksToFormat : List StrCheck → Option String → Except String (Option String)
  | [], acc => pure acc
  | StrCheck.datetime :: rest, _ => checksToFormat rest (some ("date-time"))
  | StrCheck.date :: rest, _ => checksToFormat rest (some ("date"))
  | StrCheck.other kind :: _, _ => throw ("Unsupported string check: " ++ kind)

mutual

/-- Modelled from the spec: the forward transformer `zodToVertexSchema` of
src/zod-to-vertex-schema.ts, whose implementation is absent from src/ (only
its test suite is present).  Follows the dispatch of spec section 4.1:
unwrap optional (optionality is recorded at the parent object's `required`
list); unwrap nullable setting `nullable=true`; bare null becomes a
nullable STRING; strings map their checks to `format`; numbers become
NUMBER or INTEGER copying bounds; enums and string literals become STRING
with `enum`; arrays recurse into `items` mapping an exact-length check to
`minItems=maxItems`; objects recurse into properties in declaration order,
with `required` the ordered subsequence of fields not optional-wrapped and
`propertyOrdering` the full key sequence; unions and discriminated unions
flatten to `anyOf` with no `type`; lazy schemas, non-string literals and
unrecognized kinds fail by name.  A description wrapper is copied onto the
produced node, the outermost wrapper winning. -/
def zodToVertexSchema : ZodType → Except String VertexSchema
  | ZodType.zdescribe d inner => do
      let r ← zodToVertexSchema inner
      pure (r.setDescription (some d))
  | ZodType.zoptional inner => zodToVertexSchema inner
  | ZodType.znullable inner => do
      let r ← zodToVertexSchema inner
      pure (r.setNullable (some true))
  | ZodType.znull =>
      pure (VertexSchema.mk (some SchemaType.STRING) none none (some true)
        none none none none none none none none none none)
  | ZodType.zstring checks => do
      let fmt ← checksToFormat checks none
      pure (VertexSchema.mk (some SchemaType.STRING) fmt none none
        none none none none none none none none none none)
  | ZodType.znumber isInt lo hi =>
      pure (VertexSchema.mk (some (if isInt then SchemaType.INTEGER else SchemaType.NUMBER))
        none none none none none none none none none none none lo hi)
  | ZodType.zboolean =>
      pure (VertexSchema.mk (some SchemaType.BOOLEAN) none none none
        none none none none none none none none none none)
  | ZodType.zenum values =>
      pure (VertexSchema.mk (some SchemaType.STRING) none none none
        none (some values) none none none none none none none none)
  | ZodType.zliteral value =>
      pure (VertexSchema.mk (some SchemaType.STRING) none none none
        none (some [value]) none none none none none none none none)
  | ZodType.zliteralNum _ => throw numberLiteralErrorMsg
  | ZodType.zarray el lo hi exact => do
      let itemsSchema ← zodToVertexSchema el
      let bounds := match exact with
        | some n => (some n, some n)
        | none => (lo, hi)
      pure (VertexSchema.mk (some SchemaType.ARRAY) none none none
        (some itemsSchema) none none none none none bounds.1 bounds.2 none none)
  | ZodType.zobject fields => do
      let props ← fwdProps fields
      pure (VertexSchema.mk (some SchemaType.OBJECT) none none none
        none none (some props)
        (some ((fields.filter (fun kt => !(hasOptionalWrapper kt.2))).map (fun kt => kt.1)))
        (some (fields.map (fun kt => kt.1)))
        none none none none none)
  | ZodType.zunion branches => do
      let subs ← fwdList branches
      pure (VertexSchema.mk none none none none
        none none none none none (some subs) none none none none)
  | ZodType.zdiscriminatedUnion _ branches => do
      let subs ← fwdList branches
      pure (VertexSchema.mk none none none none
        none none none none none (some subs) none none none none)
  | ZodType.zlazy => throw lazyErrorMsg
  | ZodType.zother typeName => throw ("Unsupported Zod type: " ++ typeName)

/-- Forward-converts union branches in order, propagating errors. -/
def fwdList : List ZodType → Except String (List VertexSchema)
  | [] => pure []
  | t :: ts => do
      let s ← zodToVertexSchema t
      let ss ← fwdList ts
      pure (s :: ss)

/-- Forward-converts object fields in declaration order, propagating
errors; keys are kept, values converted. -/
def fwdProps : List (String × ZodType) → Except String (List (String × VertexSchema))
  | [] => pure []
  | (k, t) :: fs => do
      let s ← zodToVertexSchema t
      let ss ← fwdProps fs
      pure ((k, s) :: ss)

end

mutual

/-- All nodes of a target schema tree: the node itself and, recursively,
its `items` child, its property values and its `anyOf` branches. -/
def vsNodes : VertexSchema → List VertexSchema
  | VertexSchema.mk ty fmt desc nul items en props req ord anyOf mnI mxI lo hi =>
    VertexSchema.mk ty fmt desc nul items en props req ord anyOf mnI mxI lo hi
      :: ((match items with | some i => vsNodes i | none => [])
        ++ (match props with | some ps => vsNodesProps ps | none => [])
        ++ (match anyOf with | some l => vsNodesList l | none => []))

/-- All nodes of the trees in a list of target schemas. -/
def vsNodesList : List VertexSchema → List VertexSchema
  | [] => []
  | s :: ss => vsNodes s ++ vsNodesList ss

/-- All nodes of the trees of an association list of target schemas. -/
def vsNodesProps : List (String × VertexSchema) → List VertexSchema
  | [] => []
  | (_, v) :: ps => vsNodes v ++ vsNodesProps ps

end

/-- The `propertyOrdering` invariant of a target node: the field is exactly
the key sequence of `properties`, in the same order (including: both absent
together). -/
def orderingInvariant (n : VertexSchema) : Prop :=
  n.propertyOrdering = n.properties.map (fun ps => ps.map Prod.fst)

/-- The round-trip test's original Zod schema (test file, Round-Trip Check):
an object with a described string field `name` and a described number field
`age` bounded by min 10 and max 100, the object itself described. -/
def origC1 : ZodType :=
  ZodType.zdescribe ("A user object") (ZodType.zobject
    [("name", ZodType.zdescribe ("Name field") (ZodType.zstring [])),
     ("age", ZodType.zdescribe ("Age field") (ZodType.znumber false (some 10) (some 100)))])

/-- The accepted round-trip input: name "Bob", age 55. -/
def validC1 : JValue := JValue.obj [("name", JValue.str ("Bob")), ("age", JValue.num 55)]

/-- The rejected round-trip input: name "Bob", age 9 (below the minimum). -/
def invalidC1 : JValue := JValue.obj [("name", JValue.str ("Bob")), ("age", JValue.num 9)]

/-- A bare STRING target node, used as a concrete building block below. -/
def strVS : VertexSchema :=
  VertexSchema.mk (some SchemaType.STRING) none none none
    none none none none none none none none none none

/-- A bare BOOLEAN target node, used as a concrete building block below. -/
def boolVS : VertexSchema :=
  VertexSchema.mk (some SchemaType.BOOLEAN) none none none
    none none none none none none none none none none

/-- Counterexample input for claim C3 as stated: a node whose `type` is
ARRAY with no `items`, but which also carries a non-empty `anyOf`.  The
node is reached (it is the root), satisfies condition (a) of the claim,
yet the conversion succeeds because `anyOf` takes precedence. -/
def arrayNoItemsWithAnyOf : VertexSchema :=
  VertexSchema.mk (some SchemaType.ARRAY) none none none
    none none none none none (some [strVS]) none none none none

/-- An ARRAY node with no `items` and no `anyOf`: the genuine failure case
of the reverse transformer. -/
def arrayNoItems : VertexSchema :=
  VertexSchema.mk (some SchemaType.ARRAY) none none none
    none none none none none none none none none none

/-- Forward-conversion witness input: an object with a required string
field and an optional string field. -/
def objSrcW : ZodType :=
  ZodType.zobject [("a", ZodType.zstring []), ("b", ZodType.zoptional (ZodType.zstring []))]

/-- The target schema the forward transformer produces for `objSrcW`. -/
def objOutW : VertexSchema :=
  VertexSchema.mk (some SchemaType.OBJECT) none none none
    none none (some [("a", strVS), ("b", strVS)]) (some ["a"]) (some ["a", "b"])
    none none none none none

/-- Witness input for C4: a union node that also carries a concrete
`type`, a description and `nullable=true`, exercising the precedence of
`anyOf`. -/
def unionW : VertexSchema :=
  VertexSchema.mk (some SchemaType.BOOLEAN) none (some ("u")) (some true)
    none none none none none (some [strVS, boolVS]) none none none none

/-- Witness input for C5: a STRING node with a three-value enum. -/
def enumW : VertexSchema :=
  VertexSchema.mk (some SchemaType.STRING) none none none
    none (some ["RED", "GREEN", "BLUE"]) none none none none none none none none

/-- Witness input for C5: a STRING node with a one-value enum. -/
def literalW : VertexSchema :=
  VertexSchema.mk (some SchemaType.STRING) none none none
    none (some ["ONE_VALUE_ONLY"]) none none none none none none none none

/-- Witness input for C6: an OBJECT node with two properties of which only
the first is required, plus a `propertyOrdering` field to vary. -/
def objW : VertexSchema :=
  VertexSchema.mk (some SchemaType.OBJECT) none none none
    none none (some [("a", strVS), ("b", strVS)]) (some ["a"]) none none none none none none

/-- Witness input for C7: a nullable STRING node. -/
def nullableStrW : VertexSchema :=
  VertexSchema.mk (some SchemaType.STRING) none none (some true)
    none none none none none none none none none none

/-- Witness input for C8: a STRING node with `format="date-time"`. -/
def datetimeW : VertexSchema :=
  VertexSchema.mk (some SchemaType.STRING) (some ("date-time")) none none
    none none none none none none none none none none

/-- Witness input for C8: a STRING node with `format="date"`, which the
reverse transformer does not translate into a check. -/
def dateW : VertexSchema :=
  VertexSchema.mk (some SchemaType.STRING) (some ("date")) none none
    none none none none none none none none none none

/-- Witness input for C9: a STRING node with a present-but-empty enum. -/
def emptyEnumW : VertexSchema :=
  VertexSchema.mk (some SchemaType.STRING) none none none
    none (some []) none none none none none none none none

/-- Witness input for C10: a union node with exactly one branch. -/
def singletonUnionW : VertexSchema :=
  VertexSchema.mk none none none none
    none none none none none (some [strVS]) none none none none

/-- Throwing in the `Except String` monad is the `error` constructor. -/
theorem throw_eq_error {α : Type} (e : String) :
    (throw e : Except String α) = Except.error e := rfl

/-- An `ok` result is ok. -/
theorem isOk_ok {α : Type} (a : α) : (Except.ok a : Except String α).isOk = true := rfl

/-- An `error` result is not ok. -/
theorem isOk_error {α : Type} (e : String) :
    (Except.error e : Except String α).isOk = false := rfl

/-- A present non-empty `anyOf` makes the reverse transformer build a
union over the branches converted in order, describe it, and apply
nullable last, whatever the `type` field holds. -/
theorem anyOf_union_conversion (s : VertexSchema) (l : List VertexSchema)
    (h : s.anyOf = some l) (hne : l ≠ []) :
    vertexSchemaToZod s = (revList l).map
      (fun variants => applyNullable (describeIf s.description (ZodType.zunion variants)) s) := by
  obtain ⟨ty, fmt, desc, nul, items, en, props, req, ord, anyOf, mnI, mxI, lo, hi⟩ := s
  simp only [VertexSchema.anyOf] at h
  subst h
  cases l with
  | nil => exact absurd rfl hne
  | cons b bs =>
      simp only [vertexSchemaToZod, VertexSchema.description]
      cases hr : revList (b :: bs) with
      | ok ts => simp [hr, Except.map, bind, Except.bind, pure, Except.pure]
      | error e => simp [hr, Except.map, bind, Except.bind]

/-- C10: a one-branch `anyOf` does not fail: it converts to a one-variant
union wrapping the converted branch (description and nullable applied on
top), and a one-variant union accepts exactly what its branch accepts. -/
theorem c10_singleton_union (s : VertexSchema) (b : VertexSchema)
    (h : s.anyOf = some [b]) :
    vertexSchemaToZod s = (vertexSchemaToZod b).map
      (fun t => applyNullable (describeIf s.description (ZodType.zunion [t])) s)
      ∧ (∀ t v, accepts (ZodType.zunion [t]) v = accepts t v) := by
  constructor
  · have h4 := anyOf_union_conversion s [b] h (by simp)
    rw [h4]
    simp only [revList]
    cases hb : vertexSchemaToZod b with
    | ok t => simp [hb, Except.map, bind, Except.bind, pure, Except.pure, revList]
    | error e => simp [hb, Except.map, bind, Except.bind]
  · intro t v
    simp [accepts, acceptsAny]

/-- With no non-empty `anyOf` and `type=STRING`, the reverse transformer
returns `makeStringZod` of the node. -/
theorem string_dispatch (s : VertexSchema)
    (ha : s.anyOf = none ∨ s.anyOf = some [])
    (ht : s.type = some SchemaType.STRING) :
    vertexSchemaToZod s = Except.ok (makeStringZod s) := by
  obtain ⟨ty, fmt, desc, nul, items, en, props, req, ord, anyOf, mnI, mxI, lo, hi⟩ := s
  simp only [VertexSchema.anyOf, VertexSchema.type] at ha ht
  subst ht
  rcases ha with h | h <;> subst h <;> simp [vertexSchemaToZod, pure, Except.pure]

/-- C5: a STRING node with an enum of more than one value becomes an enum
node over exactly those values in order, accepting precisely those strings;
with exactly one value it becomes a string literal node accepting precisely
that value. -/
theorem c5_enum_literal (s : VertexSchema) (l : List String)
    (ha : s.anyOf = none ∨ s.anyOf = some [])
    (ht : s.type = some SchemaType.STRING) (he : s.enum = some l) :
    (1 < l.length →
        vertexSchemaToZod s =
          Except.ok (applyNullable (describeIf s.description (ZodType.zenum l)) s)
        ∧ ∀ v, accepts (ZodType.zenum l) v = true ↔ ∃ x, v = JValue.str x ∧ l.contains x = true)
      ∧ (∀ x, l = [x] →
        vertexSchemaToZod s =
          Except.ok (applyNullable (describeIf s.description (ZodType.zliteral x)) s)
        ∧ ∀ v, accepts (ZodType.zliteral x) v = true ↔ v = JValue.str x) := by
  have hd := string_dispatch s ha ht
  obtain ⟨ty, fmt, desc, nul, items, en, props, req, ord, anyOf, mnI, mxI, lo, hi⟩ := s
  simp only [VertexSchema.enum] at he
  subst he
  constructor
  · intro hlen
    constructor
    · rw [hd]
      simp [makeStringZod, stringZodBody, hlen]
    · intro v
      cases v <;> simp [accepts]
  · intro x hx
    subst hx
    constructor
    · rw [hd]
      simp [makeStringZod, stringZodBody]
    · intro v
      cases v <;> simp [accepts]
      try exact eq_comm

/-- C8: a STRING node without enum gets a date-time check iff
`format="date-time"` (a plain ISO-8601 UTC datetime validates, a non
datetime string does not); any other format value, including "date", is
dropped and the node accepts every string. -/
theorem c8_datetime_format (s : VertexSchema)
    (ha : s.anyOf = none ∨ s.anyOf = some [])
    (ht : s.type = some SchemaType.STRING) (he : s.enum = none) :
    (s.format = some ("date-time") →
        vertexSchemaToZod s =
          Except.ok (applyNullable (describeIf s.description (ZodType.zstring [StrCheck.datetime])) s)
        ∧ (∀ x, accepts (ZodType.zstring [StrCheck.datetime]) (JValue.str x) = isDatetimeString x)
        ∧ accepts (ZodType.zstring [StrCheck.datetime]) (JValue.str ("2024-01-15T10:30:00Z")) = true
        ∧ accepts (ZodType.zstring [StrCheck.datetime]) (JValue.str ("not-a-datetime")) = false)
      ∧ (s.format ≠ some ("date-time") →
        vertexSchemaToZod s =
          Except.ok (applyNullable (describeIf s.description (ZodType.zstring [])) s)
        ∧ ∀ x, accepts (ZodType.zstring []) (JValue.str x) = true) := by
  have hd := string_dispatch s ha ht
  obtain ⟨ty, fmt, desc, nul, items, en, props, req, ord, anyOf, mnI, mxI, lo, hi⟩ := s
  simp only [VertexSchema.enum] at he
  subst he
  constructor
  · intro hf
    simp only [VertexSchema.format] at hf
    refine ⟨?_, ?_, by decide, by decide⟩
    · rw [hd]
      simp [makeStringZod, stringZodBody, hf]
    · intro x
      simp [accepts, strCheckOk]
  · intro hf
    simp only [VertexSchema.format] at hf
    constructor
    · rw [hd]
      simp [makeStringZod, stringZodBody, hf]
    · intro x
      simp [accepts]

/-- `applyNullable` reads only the `nullable` field of the record. -/
theorem applyNullable_mk (t : ZodType) (ty : Option SchemaType) (fmt desc : Option String)
    (nul : Option Bool) (items : Option VertexSchema) (en : Option (List String))
    (props : Option (List (String × VertexSchema))) (req ord : Option (List String))
    (anyOf : Option (List VertexSchema)) (mnI mxI : Option Int) (lo hi : Option Rat) :
    applyNullable t (VertexSchema.mk ty fmt desc nul items en props req ord anyOf mnI mxI lo hi)
      = if nul = some true then ZodType.znullable t else t := by
  simp [applyNullable]

/-- C9: a present-but-empty `enum` behaves exactly as an absent one: the
conversion result is unchanged by erasing it, and a STRING node so built
succeeds, producing the plain-string result (date-time check only from
`format`), which accepts every string when no check is attached. -/
theorem c9_empty_enum (s : VertexSchema) (he : s.enum = some []) :
    vertexSchemaToZod s = vertexSchemaToZod (s.setEnum none)
      ∧ ((s.anyOf = none ∨ s.anyOf = some []) → s.type = some SchemaType.STRING →
        (vertexSchemaToZod s).isOk = true
        ∧ vertexSchemaToZod s = Except.ok (applyNullable (describeIf s.description
            (ZodType.zstring (if s.format = some ("date-time") then [StrCheck.datetime] else []))) s)
        ∧ (s.format ≠ some ("date-time") →
            ∀ x, accepts (ZodType.zstring []) (JValue.str x) = true)) := by
  obtain ⟨ty, fmt, desc, nul, items, en, props, req, ord, anyOf, mnI, mxI, lo, hi⟩ := s
  simp only [VertexSchema.enum] at he
  subst he
  constructor
  · -- only makeStringZod reads enum, and an empty enum falls through both tests
    have harr : ∀ (it : Option VertexSchema) (ao : Option (List VertexSchema)),
        (∀ b bs, ao = some (b :: bs) → False) →
        vertexSchemaToZod (VertexSchema.mk ty fmt desc nul it (some []) props req ord ao mnI mxI lo hi)
          = vertexSchemaToZod (VertexSchema.mk ty fmt desc nul it none props req ord ao mnI mxI lo hi) := by
      intro it ao hao
      cases ao with
      | some l =>
        cases l with
        | nil =>
          cases ty with
          | none => simp [vertexSchemaToZod]
          | some st =>
            cases st with
            | STRING => simp [vertexSchemaToZod, makeStringZod, stringZodBody, applyNullable_mk]
            | NUMBER => simp [vertexSchemaToZod, makeNumberZod, numberZodBody, applyNullable_mk]
            | INTEGER => simp [vertexSchemaToZod, makeNumberZod, numberZodBody, applyNullable_mk]
            | BOOLEAN => simp [vertexSchemaToZod, makeBooleanZod, applyNullable_mk]
            | ARRAY =>
              cases it with
              | none => simp [vertexSchemaToZod]
              | some i => simp [vertexSchemaToZod, applyNullable_mk]
            | OBJECT =>
              cases props with
              | none => simp [vertexSchemaToZod, applyNullable_mk]
              | some ps => simp [vertexSchemaToZod, applyNullable_mk]
        | cons b bs => exact absurd (hao b bs rfl) (fun h => h)
      | none =>
        cases ty with
        | none => simp [vertexSchemaToZod]
        | some st =>
          cases st with
          | STRING => simp [vertexSchemaToZod, makeStringZod, stringZodBody, applyNullable_mk]
          | NUMBER => simp [vertexSchemaToZod, makeNumberZod, numberZodBody, applyNullable_mk]
          | INTEGER => simp [vertexSchemaToZod, makeNumberZod, numberZodBody, applyNullable_mk]
          | BOOLEAN => simp [vertexSchemaToZod, makeBooleanZod, applyNullable_mk]
          | ARRAY =>
            cases it with
            | none => simp [vertexSchemaToZod]
            | some i => simp [vertexSchemaToZod, applyNullable_mk]
          | OBJECT =>
            cases props with
            | none => simp [vertexSchemaToZod, applyNullable_mk]
            | some ps => simp [vertexSchemaToZod, applyNullable_mk]
    cases anyOf with
    | some l =>
      cases l with
      | nil => exact harr items (some []) (fun b bs h => by simp at h)
      | cons b bs => simp [vertexSchemaToZod, applyNullable_mk]
    | none => exact harr items none (fun b bs h => by simp at h)
  · intro ha ht
    have hd := string_dispatch (VertexSchema.mk ty fmt desc nul items (some []) props req ord anyOf mnI mxI lo hi) ha ht
    refine ⟨?_, ?_, ?_⟩
    · rw [hd]; rfl
    · rw [hd]
      simp [makeStringZod, stringZodBody]
    · intro hf x
      simp [accepts]

/-- C6: an OBJECT node converts by traversing `properties` in the
mapping's own key order through `revProps` (whose recursion makes each
field optional iff its key is not in `required`, witnessed by the third
conjunct); `propertyOrdering` is never consulted: changing it leaves the
result unchanged. -/
theorem c6_object (s : VertexSchema) (ps : List (String × VertexSchema))
    (ha : s.anyOf = none ∨ s.anyOf = some [])
    (ht : s.type = some SchemaType.OBJECT) (hp : s.properties = some ps) :
    vertexSchemaToZod s = (revProps ps (s.required.getD [])).map
        (fun shape => applyNullable (describeIf s.description (ZodType.zobject shape)) s)
      ∧ (∀ ord2, vertexSchemaToZod (s.setPropertyOrdering ord2) = vertexSchemaToZod s)
      ∧ (∀ key pv rest req out,
          revProps ((key, pv) :: rest) req = Except.ok out →
          ∃ t tl, vertexSchemaToZod pv = Except.ok t ∧ revProps rest req = Except.ok tl
            ∧ out = (key, if key ∈ req then t else ZodType.zoptional t) :: tl) := by
  obtain ⟨ty, fmt, desc, nul, items, en, props, req, ord, anyOf, mnI, mxI, lo, hi⟩ := s
  simp only [VertexSchema.type, VertexSchema.properties, VertexSchema.anyOf] at ht hp ha
  subst ht
  subst hp
  refine ⟨?_, ?_, ?_⟩
  · rcases ha with h | h <;> subst h <;>
      cases hr : revProps ps (req.getD []) <;>
        simp [vertexSchemaToZod, hr, Except.map, bind, Except.bind, pure, Except.pure]
  · intro ord2
    rcases ha with h | h <;> subst h <;>
      cases hr : revProps ps (req.getD []) <;>
        simp [vertexSchemaToZod, hr, applyNullable_mk, bind, Except.bind]
  · intro key pv rest req2 out h
    simp only [revProps] at h
    cases hpv : vertexSchemaToZod pv with
    | error e => rw [hpv] at h; simp [bind, Except.bind] at h
    | ok t =>
      rw [hpv] at h
      cases hrest : revProps rest req2 with
      | error e => rw [hrest] at h; simp [bind, Except.bind] at h
      | ok tl =>
        rw [hrest] at h
        simp [bind, Except.bind, pure, Except.pure] at h
        exact ⟨t, tl, rfl, rfl, by simpa using h.symm⟩

/-- The reverse transformer treats `nullable` as a final wrapping step:
converting any node equals converting the node with `nullable` cleared and
then applying `applyNullable` to the result. -/
theorem nullable_factor (s : VertexSchema) :
    vertexSchemaToZod s = (vertexSchemaToZod (s.setNullable none)).map
      (fun t => applyNullable t s) := by
  obtain ⟨ty, fmt, desc, nul, items, en, props, req, ord, anyOf, mnI, mxI, lo, hi⟩ := s
  cases anyOf with
  | some l =>
    cases l with
    | cons b bs =>
      cases hr : revList (b :: bs) <;>
        simp [vertexSchemaToZod, hr, applyNullable_mk, Except.map, bind, Except.bind, pure, Except.pure]
    | nil =>
      cases ty with
      | none => simp [vertexSchemaToZod, Except.map, throw_eq_error]
      | some st =>
        cases st with
        | STRING =>
          simp [vertexSchemaToZod, makeStringZod, stringZodBody, applyNullable_mk,
            Except.map, pure, Except.pure]
        | NUMBER =>
          simp [vertexSchemaToZod, makeNumberZod, numberZodBody, applyNullable_mk,
            Except.map, pure, Except.pure]
        | INTEGER =>
          simp [vertexSchemaToZod, makeNumberZod, numberZodBody, applyNullable_mk,
            Except.map, pure, Except.pure]
        | BOOLEAN =>
          simp [vertexSchemaToZod, makeBooleanZod, applyNullable_mk,
            Except.map, pure, Except.pure]
        | ARRAY =>
          cases items with
          | none => simp [vertexSchemaToZod, Except.map, throw_eq_error]
          | some it =>
            cases hr : vertexSchemaToZod it <;>
              simp [vertexSchemaToZod, hr, applyNullable_mk, Except.map, bind, Except.bind, pure, Except.pure]
        | OBJECT =>
          cases props with
          | none =>
            simp [vertexSchemaToZod, applyNullable_mk, Except.map, pure, Except.pure]
          | some ps =>
            cases hr : revProps ps (req.getD []) <;>
              simp [vertexSchemaToZod, hr, applyNullable_mk, Except.map, bind, Except.bind, pure, Except.pure]
  | none =>
    cases ty with
    | none => simp [vertexSchemaToZod, Except.map, throw_eq_error]
    | some st =>
      cases st with
      | STRING =>
        simp [vertexSchemaToZod, makeStringZod, stringZodBody, applyNullable_mk,
          Except.map, pure, Except.pure]
      | NUMBER =>
        simp [vertexSchemaToZod, makeNumberZod, numberZodBody, applyNullable_mk,
          Except.map, pure, Except.pure]
      | INTEGER =>
        simp [vertexSchemaToZod, makeNumberZod, numberZodBody, applyNullable_mk,
          Except.map, pure, Except.pure]
      | BOOLEAN =>
        simp [vertexSchemaToZod, makeBooleanZod, applyNullable_mk,
          Except.map, pure, Except.pure]
      | ARRAY =>
        cases items with
        | none => simp [vertexSchemaToZod, Except.map, throw_eq_error]
        | some it =>
          cases hr : vertexSchemaToZod it <;>
            simp [vertexSchemaToZod, hr, applyNullable_mk, Except.map, bind, Except.bind, pure, Except.pure]
      | OBJECT =>
        cases props with
        | none =>
          simp [vertexSchemaToZod, applyNullable_mk, Except.map, pure, Except.pure]
        | some ps =>
          cases hr : revProps ps (req.getD []) <;>
            simp [vertexSchemaToZod, hr, applyNullable_mk, Except.map, bind, Except.bind, pure, Except.pure]

/-- C7: `nullable=true` wraps the otherwise-converted node (description
already applied) in a nullable layer as the last step, uniformly over all
shapes; absent or false `nullable` adds nothing.  A nullable layer accepts
null plus exactly the values of the underlying shape. -/
theorem c7_nullable (s : VertexSchema) :
    (s.nullable = some true →
        vertexSchemaToZod s = (vertexSchemaToZod (s.setNullable none)).map ZodType.znullable)
      ∧ (s.nullable ≠ some true →
        vertexSchemaToZod s = vertexSchemaToZod (s.setNullable none))
      ∧ (∀ t, accepts (ZodType.znullable t) JValue.null = true)
      ∧ (∀ t v, accepts t v = true → accepts (ZodType.znullable t) v = true)
      ∧ (∀ t v, accepts (ZodType.znullable t) v = true → v = JValue.null ∨ accepts t v = true) := by
  refine ⟨?_, ?_, ?_, ?_, ?_⟩
  · intro h
    rw [nullable_factor s]
    have hs : ∀ t, applyNullable t s = ZodType.znullable t := by
      intro t
      unfold applyNullable
      rw [if_pos h]
    cases vertexSchemaToZod (s.setNullable none) with
    | error e => rfl
    | ok t => simp [Except.map, hs]
  · intro h
    rw [nullable_factor s]
    have hs : ∀ t, applyNullable t s = t := by
      intro t
      unfold applyNullable
      rw [if_neg h]
    cases vertexSchemaToZod (s.setNullable none) with
    | error e => rfl
    | ok t => simp [Except.map, hs]
  · intro t
    simp [accepts]
  · intro t v hv
    cases v
    all_goals simp [accepts]
    all_goals exact hv
  · intro t v hv
    cases v
    case null => exact Or.inl rfl
    all_goals exact Or.inr (by simpa [accepts] using hv)

mutual

/-- Error characterization of the reverse transformer: it fails exactly
on trees with a bad reachable node, and every error message is one of the
two source messages. -/
theorem rev_error_char : ∀ s : VertexSchema,
    ((vertexSchemaToZod s).isOk = false ↔ hasBad s = true)
      ∧ (∀ e, vertexSchemaToZod s = Except.error e →
          e = arrayItemsErrorMsg ∨ e = missingTypeErrorMsg)
  | VertexSchema.mk ty fmt desc nul items en props req ord anyOf mnI mxI lo hi => by
    cases anyOf with
    | some l =>
      cases l with
      | cons b bs =>
        have IH := revList_error_char (b :: bs)
        cases hr : revList (b :: bs) with
        | ok ts =>
          have hb : hasBadList (b :: bs) = false := by
            have h1 := IH.1
            rw [hr] at h1
            simpa [isOk_ok, isOk_error] using h1
          constructor
          · simp [vertexSchemaToZod, hr, hasBad, hb, bind, Except.bind, pure, Except.pure, isOk_ok, isOk_error]
          · intro e he
            simp [vertexSchemaToZod, hr, bind, Except.bind, pure, Except.pure] at he
        | error msg =>
          have hb : hasBadList (b :: bs) = true := by
            have h1 := IH.1
            rw [hr] at h1
            simpa [isOk_ok, isOk_error] using h1
          constructor
          · simp [vertexSchemaToZod, hr, hasBad, hb, bind, Except.bind, isOk_ok, isOk_error]
          · intro e he
            simp [vertexSchemaToZod, hr, bind, Except.bind] at he
            exact he ▸ IH.2 msg hr
      | nil =>
        cases ty with
        | none =>
          constructor
          · simp [vertexSchemaToZod, hasBad, throw_eq_error, isOk_ok, isOk_error]
          · intro e he
            simp [vertexSchemaToZod, throw_eq_error] at he
            exact Or.inr he.symm
        | some st =>
          cases st with
          | STRING =>
            constructor
            · simp [vertexSchemaToZod, hasBad, pure, Except.pure, isOk_ok, isOk_error]
            · intro e he
              simp [vertexSchemaToZod, pure, Except.pure] at he
          | NUMBER =>
            constructor
            · simp [vertexSchemaToZod, hasBad, pure, Except.pure, isOk_ok, isOk_error]
            · intro e he
              simp [vertexSchemaToZod, pure, Except.pure] at he
          | INTEGER =>
            constructor
            · simp [vertexSchemaToZod, hasBad, pure, Except.pure, isOk_ok, isOk_error]
            · intro e he
              simp [vertexSchemaToZod, pure, Except.pure] at he
          | BOOLEAN =>
            constructor
            · simp [vertexSchemaToZod, hasBad, pure, Except.pure, isOk_ok, isOk_error]
            · intro e he
              simp [vertexSchemaToZod, pure, Except.pure] at he
          | ARRAY =>
            cases items with
            | none =>
              constructor
              · simp [vertexSchemaToZod, hasBad, throw_eq_error, isOk_ok, isOk_error]
              · intro e he
                simp [vertexSchemaToZod, throw_eq_error] at he
                exact Or.inl he.symm
            | some it =>
              have IH := rev_error_char it
              cases hr : vertexSchemaToZod it with
              | ok t =>
                have hb : hasBad it = false := by
                  have h1 := IH.1
                  rw [hr] at h1
                  simpa [isOk_ok, isOk_error] using h1
                constructor
                · simp [vertexSchemaToZod, hr, hasBad, hb, bind, Except.bind, pure, Except.pure, isOk_ok, isOk_error]
                · intro e he
                  simp [vertexSchemaToZod, hr, bind, Except.bind, pure, Except.pure] at he
              | error msg =>
                have hb : hasBad it = true := by
                  have h1 := IH.1
                  rw [hr] at h1
                  simpa [isOk_ok, isOk_error] using h1
                constructor
                · simp [vertexSchemaToZod, hr, hasBad, hb, bind, Except.bind, isOk_ok, isOk_error]
                · intro e he
                  simp [vertexSchemaToZod, hr, bind, Except.bind] at he
                  exact he ▸ IH.2 msg hr
          | OBJECT =>
            cases props with
            | none =>
              constructor
              · simp [vertexSchemaToZod, hasBad, pure, Except.pure, isOk_ok, isOk_error]
              · intro e he
                simp [vertexSchemaToZod, pure, Except.pure] at he
            | some ps =>
              have IH := revProps_error_char ps (req.getD [])
              cases hr : revProps ps (req.getD []) with
              | ok shape =>
                have hb : hasBadProps ps = false := by
                  have h1 := IH.1
                  rw [hr] at h1
                  simpa [isOk_ok, isOk_error] using h1
                constructor
                · simp [vertexSchemaToZod, hr, hasBad, hb, bind, Except.bind, pure, Except.pure, isOk_ok, isOk_error]
                · intro e he
                  simp [vertexSchemaToZod, hr, bind, Except.bind, pure, Except.pure] at he
              | error msg =>
                have hb : hasBadProps ps = true := by
                  have h1 := IH.1
                  rw [hr] at h1
                  simpa [isOk_ok, isOk_error] using h1
                constructor
                · simp [vertexSchemaToZod, hr, hasBad, hb, bind, Except.bind, isOk_ok, isOk_error]
                · intro e he
                  simp [vertexSchemaToZod, hr, bind, Except.bind] at he
                  exact he ▸ IH.2 msg hr
    | none =>
      cases ty with
      | none =>
        constructor
        · simp [vertexSchemaToZod, hasBad, throw_eq_error, isOk_ok, isOk_error]
        · intro e he
          simp [vertexSchemaToZod, throw_eq_error] at he
          exact Or.inr he.symm
      | some st =>
        cases st with
        | STRING =>
          constructor
          · simp [vertexSchemaToZod, hasBad, pure, Except.pure, isOk_ok, isOk_error]
          · intro e he
            simp [vertexSchemaToZod, pure, Except.pure] at he
        | NUMBER =>
          constructor
          · simp [vertexSchemaToZod, hasBad, pure, Except.pure, isOk_ok, isOk_error]
          · intro e he
            simp [vertexSchemaToZod, pure, Except.pure] at he
        | INTEGER =>
          constructor
          · simp [vertexSchemaToZod, hasBad, pure, Except.pure, isOk_ok, isOk_error]
          · intro e he
            simp [vertexSchemaToZod, pure, Except.pure] at he
        | BOOLEAN =>
          constructor
          · simp [vertexSchemaToZod, hasBad, pure, Except.pure, isOk_ok, isOk_error]
          · intro e he
            simp [vertexSchemaToZod, pure, Except.pure] at he
        | ARRAY =>
          cases items with
          | none =>
            constructor
            · simp [vertexSchemaToZod, hasBad, throw_eq_error, isOk_ok, isOk_error]
            · intro e he
              simp [vertexSchemaToZod, throw_eq_error] at he
              exact Or.inl he.symm
          | some it =>
            have IH := rev_error_char it
            cases hr : vertexSchemaToZod it with
            | ok t =>
              have hb : hasBad it = false := by
                have h1 := IH.1
                rw [hr] at h1
                simpa [isOk_ok, isOk_error] using h1
              constructor
              · simp [vertexSchemaToZod, hr, hasBad, hb, bind, Except.bind, pure, Except.pure, isOk_ok, isOk_error]
              · intro e he
                simp [vertexSchemaToZod, hr, bind, Except.bind, pure, Except.pure] at he
            | error msg =>
              have hb : hasBad it = true := by
                have h1 := IH.1
                rw [hr] at h1
                simpa [isOk_ok, isOk_error] using h1
              constructor
              · simp [vertexSchemaToZod, hr, hasBad, hb, bind, Except.bind, isOk_ok, isOk_error]
              · intro e he
                simp [vertexSchemaToZod, hr, bind, Except.bind] at he
                exact he ▸ IH.2 msg hr
        | OBJECT =>
          cases props with
          | none =>
            constructor
            · simp [vertexSchemaToZod, hasBad, pure, Except.pure, isOk_ok, isOk_error]
            · intro e he
              simp [vertexSchemaToZod, pure, Except.pure] at he
          | some ps =>
            have IH := revProps_error_char ps (req.getD [])
            cases hr : revProps ps (req.getD []) with
            | ok shape =>
              have hb : hasBadProps ps = false := by
                have h1 := IH.1
                rw [hr] at h1
                simpa [isOk_ok, isOk_error] using h1
              constructor
              · simp [vertexSchemaToZod, hr, hasBad, hb, bind, Except.bind, pure, Except.pure, isOk_ok, isOk_error]
              · intro e he
                simp [vertexSchemaToZod, hr, bind, Except.bind, pure, Except.pure] at he
            | error msg =>
              have hb : hasBadProps ps = true := by
                have h1 := IH.1
                rw [hr] at h1
                simpa [isOk_ok, isOk_error] using h1
              constructor
              · simp [vertexSchemaToZod, hr, hasBad, hb, bind, Except.bind, isOk_ok, isOk_error]
              · intro e he
                simp [vertexSchemaToZod, hr, bind, Except.bind] at he
                exact he ▸ IH.2 msg hr

/-- Error characterization for `anyOf` branch lists. -/
theorem revList_error_char : ∀ l : List VertexSchema,
    ((revList l).isOk = false ↔ hasBadList l = true)
      ∧ (∀ e, revList l = Except.error e →
          e = arrayItemsErrorMsg ∨ e = missingTypeErrorMsg)
  | [] => by
    constructor
    · simp [revList, hasBadList, pure, Except.pure, isOk_ok, isOk_error]
    · intro e he
      simp [revList, pure, Except.pure] at he
  | s :: ss => by
    have IHh := rev_error_char s
    have IHt := revList_error_char ss
    cases hs : vertexSchemaToZod s with
    | error msg =>
      have hb : hasBad s = true := by
        have h1 := IHh.1
        rw [hs] at h1
        simpa [isOk_ok, isOk_error] using h1
      constructor
      · simp [revList, hs, hasBadList, hb, bind, Except.bind, isOk_ok, isOk_error]
      · intro e he
        simp [revList, hs, bind, Except.bind] at he
        exact he ▸ IHh.2 msg hs
    | ok t =>
      have hb : hasBad s = false := by
        have h1 := IHh.1
        rw [hs] at h1
        simpa [isOk_ok, isOk_error] using h1
      cases ht : revList ss with
      | error msg =>
        have hbt : hasBadList ss = true := by
          have h1 := IHt.1
          rw [ht] at h1
          simpa [isOk_ok, isOk_error] using h1
        constructor
        · simp [revList, hs, ht, hasBadList, hb, hbt, bind, Except.bind, isOk_ok, isOk_error]
        · intro e he
          simp [revList, hs, ht, bind, Except.bind] at he
          exact he ▸ IHt.2 msg ht
      | ok ts =>
        have hbt : hasBadList ss = false := by
          have h1 := IHt.1
          rw [ht] at h1
          simpa [isOk_ok, isOk_error] using h1
        constructor
        · simp [revList, hs, ht, hasBadList, hb, hbt, bind, Except.bind, pure, Except.pure, isOk_ok, isOk_error]
        · intro e he
          simp [revList, hs, ht, bind, Except.bind, pure, Except.pure] at he

/-- Error characterization for object property lists. -/
theorem revProps_error_char : ∀ (ps : List (String × VertexSchema)) (req : List String),
    ((revProps ps req).isOk = false ↔ hasBadProps ps = true)
      ∧ (∀ e, revProps ps req = Except.error e →
          e = arrayItemsErrorMsg ∨ e = missingTypeErrorMsg)
  | [], _ => by
    constructor
    · simp [revProps, hasBadProps, pure, Except.pure, isOk_ok, isOk_error]
    · intro e he
      simp [revProps, pure, Except.pure] at he
  | (k, v) :: ps, req => by
    have IHh := rev_error_char v
    have IHt := revProps_error_char ps req
    cases hs : vertexSchemaToZod v with
    | error msg =>
      have hb : hasBad v = true := by
        have h1 := IHh.1
        rw [hs] at h1
        simpa [isOk_ok, isOk_error] using h1
      constructor
      · simp [revProps, hs, hasBadProps, hb, bind, Except.bind, isOk_ok, isOk_error]
      · intro e he
        simp [revProps, hs, bind, Except.bind] at he
        exact he ▸ IHh.2 msg hs
    | ok t =>
      have hb : hasBad v = false := by
        have h1 := IHh.1
        rw [hs] at h1
        simpa [isOk_ok, isOk_error] using h1
      cases ht : revProps ps req with
      | error msg =>
        have hbt : hasBadProps ps = true := by
          have h1 := IHt.1
          rw [ht] at h1
          simpa [isOk_ok, isOk_error] using h1
        constructor
        · simp [revProps, hs, ht, hasBadProps, hb, hbt, bind, Except.bind, isOk_ok, isOk_error]
        · intro e he
          simp [revProps, hs, ht, bind, Except.bind] at he
          exact he ▸ IHt.2 msg ht
      | ok ts =>
        have hbt : hasBadProps ps = false := by
          have h1 := IHt.1
          rw [ht] at h1
          simpa [isOk_ok, isOk_error] using h1
        constructor
        · simp [revProps, hs, ht, hasBadProps, hb, hbt, bind, Except.bind, pure, Except.pure, isOk_ok, isOk_error]
        · intro e he
          simp [revProps, hs, ht, bind, Except.bind, pure, Except.pure] at he

end

/-- Membership in the nodes of a list of trees. -/
theorem mem_vsNodesList (n : VertexSchema) : ∀ l : List VertexSchema,
    n ∈ vsNodesList l ↔ ∃ s ∈ l, n ∈ vsNodes s
  | [] => by simp [vsNodesList]
  | s :: ss => by
    simp [vsNodesList, List.mem_append, mem_vsNodesList n ss]

/-- Membership in the nodes of an association list of trees. -/
theorem mem_vsNodesProps (n : VertexSchema) : ∀ ps : List (String × VertexSchema),
    n ∈ vsNodesProps ps ↔ ∃ p ∈ ps, n ∈ vsNodes p.2
  | [] => by simp [vsNodesProps]
  | (k, v) :: ps => by
    simp [vsNodesProps, List.mem_append, mem_vsNodesProps n ps]

/-- The ordering invariant over a whole tree survives replacing the root
description. -/
theorem fwdInv_setDescription (s : VertexSchema) (d : Option String)
    (h : ∀ n ∈ vsNodes s, orderingInvariant n) :
    ∀ n ∈ vsNodes (s.setDescription d), orderingInvariant n := by
  obtain ⟨t, f, de, nu, it, en, pr, re, oo, ao, mi, ma, lo, hi⟩ := s
  intro n hn
  simp only [VertexSchema.setDescription] at hn
  unfold vsNodes at hn
  simp only [List.mem_cons] at hn
  rcases hn with rfl | hn
  · have := h (VertexSchema.mk t f de nu it en pr re oo ao mi ma lo hi)
      (by unfold vsNodes; simp)
    simpa [orderingInvariant] using this
  · exact h n (by unfold vsNodes; simp only [List.mem_cons]; exact Or.inr hn)

/-- The ordering invariant over a whole tree survives replacing the root
nullable flag. -/
theorem fwdInv_setNullable (s : VertexSchema) (b : Option Bool)
    (h : ∀ n ∈ vsNodes s, orderingInvariant n) :
    ∀ n ∈ vsNodes (s.setNullable b), orderingInvariant n := by
  obtain ⟨t, f, de, nu, it, en, pr, re, oo, ao, mi, ma, lo, hi⟩ := s
  intro n hn
  simp only [VertexSchema.setNullable] at hn
  unfold vsNodes at hn
  simp only [List.mem_cons] at hn
  rcases hn with rfl | hn
  · have := h (VertexSchema.mk t f de nu it en pr re oo ao mi ma lo hi)
      (by unfold vsNodes; simp)
    simpa [orderingInvariant] using this
  · exact h n (by unfold vsNodes; simp only [List.mem_cons]; exact Or.inr hn)

/-- Forward conversion of object fields preserves the key sequence. -/
theorem fwdProps_keys : ∀ (fs : List (String × ZodType)) (ps : List (String × VertexSchema)),
    fwdProps fs = Except.ok ps → ps.map Prod.fst = fs.map Prod.fst
  | [], ps => by
    intro h
    simp [fwdProps, pure, Except.pure] at h
    subst h
    rfl
  | (k, v) :: fs, ps => by
    intro h
    simp only [fwdProps] at h
    cases hz : zodToVertexSchema v with
    | error e => rw [hz] at h; simp [bind, Except.bind] at h
    | ok s =>
      rw [hz] at h
      cases hrest : fwdProps fs with
      | error e => rw [hrest] at h; simp [bind, Except.bind] at h
      | ok ss =>
        rw [hrest] at h
        simp [bind, Except.bind, pure, Except.pure] at h
        subst h
        simp [fwdProps_keys fs ss hrest]

mutual

/-- Every node of every tree the forward transformer produces satisfies
the `propertyOrdering` invariant. -/
theorem fwd_ordering : ∀ (z : ZodType) (t : VertexSchema),
    zodToVertexSchema z = Except.ok t → ∀ n ∈ vsNodes t, orderingInvariant n
  | ZodType.zdescribe d inner, t => by
    intro h
    simp only [zodToVertexSchema] at h
    cases hr : zodToVertexSchema inner with
    | error e => rw [hr] at h; simp [bind, Except.bind] at h
    | ok r =>
      rw [hr] at h
      simp only [bind, Except.bind, pure, Except.pure, Except.ok.injEq] at h
      subst h
      exact fwdInv_setDescription r (some d) (fwd_ordering inner r hr)
  | ZodType.zoptional inner, t => by
    intro h
    simp only [zodToVertexSchema] at h
    exact fwd_ordering inner t h
  | ZodType.znullable inner, t => by
    intro h
    simp only [zodToVertexSchema] at h
    cases hr : zodToVertexSchema inner with
    | error e => rw [hr] at h; simp [bind, Except.bind] at h
    | ok r =>
      rw [hr] at h
      simp only [bind, Except.bind, pure, Except.pure, Except.ok.injEq] at h
      subst h
      exact fwdInv_setNullable r (some true) (fwd_ordering inner r hr)
  | ZodType.znull, t => by
    intro h
    simp only [zodToVertexSchema, pure, Except.pure, Except.ok.injEq] at h
    subst h
    intro n hn
    unfold vsNodes at hn
    simp at hn
    subst hn
    simp [orderingInvariant]
  | ZodType.zstring checks, t => by
    intro h
    simp only [zodToVertexSchema] at h
    cases hf : checksToFormat checks none with
    | error e => rw [hf] at h; simp [bind, Except.bind] at h
    | ok fmt =>
      rw [hf] at h
      simp only [bind, Except.bind, pure, Except.pure, Except.ok.injEq] at h
      subst h
      intro n hn
      unfold vsNodes at hn
      simp at hn
      subst hn
      simp [orderingInvariant]
  | ZodType.znumber isInt lo hi, t => by
    intro h
    simp only [zodToVertexSchema, pure, Except.pure, Except.ok.injEq] at h
    subst h
    intro n hn
    unfold vsNodes at hn
    simp at hn
    subst hn
    simp [orderingInvariant]
  | ZodType.zboolean, t => by
    intro h
    simp only [zodToVertexSchema, pure, Except.pure, Except.ok.injEq] at h
    subst h
    intro n hn
    unfold vsNodes at hn
    simp at hn
    subst hn
    simp [orderingInvariant]
  | ZodType.zenum values, t => by
    intro h
    simp only [zodToVertexSchema, pure, Except.pure, Except.ok.injEq] at h
    subst h
    intro n hn
    unfold vsNodes at hn
    simp at hn
    subst hn
    simp [orderingInvariant]
  | ZodType.zliteral value, t => by
    intro h
    simp only [zodToVertexSchema, pure, Except.pure, Except.ok.injEq] at h
    subst h
    intro n hn
    unfold vsNodes at hn
    simp at hn
    subst hn
    simp [orderingInvariant]
  | ZodType.zliteralNum value, t => by
    intro h
    simp [zodToVertexSchema, throw_eq_error] at h
  | ZodType.zlazy, t => by
    intro h
    simp [zodToVertexSchema, throw_eq_error] at h
  | ZodType.zother name, t => by
    intro h
    simp [zodToVertexSchema, throw_eq_error] at h
  | ZodType.zarray el lo hi exact, t => by
    intro h
    simp only [zodToVertexSchema] at h
    cases hr : zodToVertexSchema el with
    | error e => rw [hr] at h; simp [bind, Except.bind] at h
    | ok its =>
      rw [hr] at h
      simp only [bind, Except.bind, pure, Except.pure, Except.ok.injEq] at h
      subst h
      intro n hn
      unfold vsNodes at hn
      simp at hn
      rcases hn with rfl | hn
      · simp [orderingInvariant]
      · exact fwd_ordering el its hr n hn
  | ZodType.zobject fields, t => by
    intro h
    simp only [zodToVertexSchema] at h
    cases hp : fwdProps fields with
    | error e => rw [hp] at h; simp [bind, Except.bind] at h
    | ok props =>
      rw [hp] at h
      simp only [bind, Except.bind, pure, Except.pure, Except.ok.injEq] at h
      subst h
      intro n hn
      unfold vsNodes at hn
      simp [mem_vsNodesProps] at hn
      rcases hn with rfl | ⟨a, b, hab, hnb⟩
      · simp [orderingInvariant, fwdProps_keys fields props hp]
      · exact fwdProps_ordering fields props hp (a, b) hab n hnb
  | ZodType.zunion branches, t => by
    intro h
    simp only [zodToVertexSchema] at h
    cases hb : fwdList branches with
    | error e => rw [hb] at h; simp [bind, Except.bind] at h
    | ok subs =>
      rw [hb] at h
      simp only [bind, Except.bind, pure, Except.pure, Except.ok.injEq] at h
      subst h
      intro n hn
      unfold vsNodes at hn
      simp [mem_vsNodesList] at hn
      rcases hn with rfl | ⟨u, hu, hnu⟩
      · simp [orderingInvariant]
      · exact fwdList_ordering branches subs hb u hu n hnu
  | ZodType.zdiscriminatedUnion disc branches, t => by
    intro h
    simp only [zodToVertexSchema] at h
    cases hb : fwdList branches with
    | error e => rw [hb] at h; simp [bind, Except.bind] at h
    | ok subs =>
      rw [hb] at h
      simp only [bind, Except.bind, pure, Except.pure, Except.ok.injEq] at h
      subst h
      intro n hn
      unfold vsNodes at hn
      simp [mem_vsNodesList] at hn
      rcases hn with rfl | ⟨u, hu, hnu⟩
      · simp [orderingInvariant]
      · exact fwdList_ordering branches subs hb u hu n hnu

/-- The ordering invariant for forward-converted branch lists. -/
theorem fwdList_ordering : ∀ (zs : List ZodType) (ts : List VertexSchema),
    fwdList zs = Except.ok ts → ∀ s ∈ ts, ∀ n ∈ vsNodes s, orderingInvariant n
  | [], ts => by
    intro h
    simp only [fwdList, pure, Except.pure, Except.ok.injEq] at h
    subst h
    simp
  | z :: zs, ts => by
    intro h
    simp only [fwdList] at h
    cases hz : zodToVertexSchema z with
    | error e => rw [hz] at h; simp [bind, Except.bind] at h
    | ok s =>
      rw [hz] at h
      cases hrest : fwdList zs with
      | error e => rw [hrest] at h; simp [bind, Except.bind] at h
      | ok ss =>
        rw [hrest] at h
        simp only [bind, Except.bind, pure, Except.pure, Except.ok.injEq] at h
        subst h
        intro u hu
        rcases List.mem_cons.mp hu with rfl | hu
        · exact fwd_ordering z u hz
        · exact fwdList_ordering zs ss hrest u hu

/-- The ordering invariant for forward-converted field lists. -/
theorem fwdProps_ordering : ∀ (fs : List (String × ZodType)) (ps : List (String × VertexSchema)),
    fwdProps fs = Except.ok ps → ∀ p ∈ ps, ∀ n ∈ vsNodes p.2, orderingInvariant n
  | [], ps => by
    intro h
    simp only [fwdProps, pure, Except.pure, Except.ok.injEq] at h
    subst h
    simp
  | (k, z) :: fs, ps => by
    intro h
    simp only [fwdProps] at h
    cases hz : zodToVertexSchema z with
    | error e => rw [hz] at h; simp [bind, Except.bind] at h
    | ok s =>
      rw [hz] at h
      cases hrest : fwdProps fs with
      | error e => rw [hrest] at h; simp [bind, Except.bind] at h
      | ok ss =>
        rw [hrest] at h
        simp only [bind, Except.bind, pure, Except.pure, Except.ok.injEq] at h
        subst h
        intro p hp
        rcases List.mem_cons.mp hp with rfl | hp
        · exact fwd_ordering z s hz
        · exact fwdProps_ordering fs ss hrest p hp

end

/-- C1: forward-converting the user-object schema and reverse-converting
the result succeeds and yields a validator that accepts name "Bob" with
age 55 and rejects name "Bob" with age 9, exactly matching the original
validator's accept/reject decisions on those two inputs. -/
theorem c1_round_trip :
    ((zodToVertexSchema origC1).bind vertexSchemaToZod).map
        (fun t => (accepts t validC1, accepts t invalidC1)) = Except.ok (true, false)
      ∧ accepts origC1 validC1 = true ∧ accepts origC1 invalidC1 = false :=
  ⟨rfl, rfl, rfl⟩

/-- C2: whenever the forward conversion succeeds, every object node of the
produced tree has `propertyOrdering` equal to the key sequence of its
`properties` (both absent on non-object nodes), and for a source object the
top-level `propertyOrdering` and the keys of `properties` are exactly the
source's field declaration order, regardless of which fields are
optional. -/
theorem c2_property_ordering (z : ZodType) (t : VertexSchema)
    (h : zodToVertexSchema z = Except.ok t) :
    (∀ n ∈ vsNodes t, orderingInvariant n)
      ∧ (∀ fields, z = ZodType.zobject fields →
          t.propertyOrdering = some (fields.map Prod.fst)
          ∧ ∃ ps, t.properties = some ps ∧ ps.map Prod.fst = fields.map Prod.fst) := by
  refine ⟨fwd_ordering z t h, ?_⟩
  intro fields hz
  subst hz
  simp only [zodToVertexSchema] at h
  cases hp : fwdProps fields with
  | error e => rw [hp] at h; simp [bind, Except.bind] at h
  | ok props =>
    rw [hp] at h
    simp only [bind, Except.bind, pure, Except.pure, Except.ok.injEq] at h
    subst h
    exact ⟨rfl, props, rfl, fwdProps_keys fields props hp⟩

/-- Witness for C2 at a concrete object source with one required and one
optional field. -/
theorem c2_property_ordering_witness :
    (∀ n ∈ vsNodes objOutW, orderingInvariant n)
      ∧ objOutW.propertyOrdering = some ["a", "b"] := by
  have h := c2_property_ordering objSrcW objOutW rfl
  refine ⟨h.1, ?_⟩
  have h2 := (h.2 [("a", ZodType.zstring []), ("b", ZodType.zoptional (ZodType.zstring []))] rfl).1
  simpa using h2

/-- C3 counterexample to the claim as stated: this reached root node has
type ARRAY and no `items` (condition (a) of the claim), yet the reverse
conversion raises no error, because its non-empty `anyOf` takes
precedence. -/
theorem c3_claim_counterexample :
    arrayNoItemsWithAnyOf.type = some SchemaType.ARRAY
      ∧ arrayNoItemsWithAnyOf.items = none
      ∧ vertexSchemaToZod arrayNoItemsWithAnyOf = Except.ok (ZodType.zunion [ZodType.zstring []]) :=
  ⟨rfl, rfl, rfl⟩

/-- C3 (amended): the reverse conversion errors iff the traversed tree
holds a bad node — one that, having no non-empty `anyOf`, either is ARRAY
without `items` or has no type at all (`hasBad` restricts to the positions
the traversal visits) — and every error carries one of the two messages
naming the offending condition; no partial result exists (the result type
is all-or-nothing). -/
theorem c3_error_characterization (s : VertexSchema) :
    ((vertexSchemaToZod s).isOk = false ↔ hasBad s = true)
      ∧ (∀ e, vertexSchemaToZod s = Except.error e →
          e = arrayItemsErrorMsg ∨ e = missingTypeErrorMsg) :=
  rev_error_char s

/-- Witness for C3 at the ARRAY-without-items node: the conversion fails
and its message names the missing `items`. -/
theorem c3_error_characterization_witness :
    (vertexSchemaToZod arrayNoItems).isOk = false
      ∧ (arrayItemsErrorMsg = arrayItemsErrorMsg ∨ arrayItemsErrorMsg = missingTypeErrorMsg) :=
  ⟨(c3_error_characterization arrayNoItems).1.mpr rfl,
   (c3_error_characterization arrayNoItems).2 arrayItemsErrorMsg rfl⟩

/-- C4: a present non-empty `anyOf` is interpreted as a union even when
`type` is present: the branches are converted recursively in order by
`revList`, combined into a union node, the description is attached to the
union itself, and nullable wrapping is applied after the union is built. -/
theorem c4_any_of_union (s : VertexSchema) (l : List VertexSchema)
    (h : s.anyOf = some l) (hne : l ≠ []) :
    vertexSchemaToZod s = (revList l).map
      (fun variants => applyNullable (describeIf s.description (ZodType.zunion variants)) s) :=
  anyOf_union_conversion s l h hne

/-- Witness for C4 at a node carrying both a `type` and a two-branch
`anyOf`, with a description and `nullable=true`. -/
theorem c4_any_of_union_witness :
    unionW.anyOf = some [strVS, boolVS]
      ∧ vertexSchemaToZod unionW = (revList [strVS, boolVS]).map
          (fun variants => applyNullable (describeIf unionW.description (ZodType.zunion variants)) unionW)
      ∧ vertexSchemaToZod unionW = Except.ok (ZodType.znullable
          (ZodType.zdescribe ("u") (ZodType.zunion [ZodType.zstring [], ZodType.zboolean]))) :=
  ⟨rfl, c4_any_of_union unionW [strVS, boolVS] rfl (by simp), rfl⟩

/-- Witness for C5 at a three-value enum and a one-value enum. -/
theorem c5_enum_literal_witness :
    enumW.enum = some ["RED", "GREEN", "BLUE"]
      ∧ vertexSchemaToZod enumW = Except.ok (ZodType.zenum ["RED", "GREEN", "BLUE"])
      ∧ literalW.enum = some ["ONE_VALUE_ONLY"]
      ∧ vertexSchemaToZod literalW = Except.ok (ZodType.zliteral ("ONE_VALUE_ONLY")) := by
  refine ⟨rfl, ?_, rfl, ?_⟩
  · exact ((c5_enum_literal enumW ["RED", "GREEN", "BLUE"] (Or.inl rfl) rfl rfl).1 (by decide)).1
  · exact ((c5_enum_literal literalW ["ONE_VALUE_ONLY"] (Or.inl rfl) rfl rfl).2 ("ONE_VALUE_ONLY") rfl).1

/-- Witness for C6 at a two-field object with one required field: the
required field stays bare and the non-required one is optional-wrapped,
and overwriting `propertyOrdering` changes nothing. -/
theorem c6_object_witness :
    vertexSchemaToZod objW = Except.ok
        (ZodType.zobject [("a", ZodType.zstring []), ("b", ZodType.zoptional (ZodType.zstring []))])
      ∧ vertexSchemaToZod (objW.setPropertyOrdering (some ["b", "a"])) = vertexSchemaToZod objW := by
  have h := c6_object objW [("a", strVS), ("b", strVS)] (Or.inl rfl) rfl rfl
  exact ⟨h.1.trans rfl, h.2.1 (some ["b", "a"])⟩

/-- Witness for C7 at a nullable STRING node. -/
theorem c7_nullable_witness :
    nullableStrW.nullable = some true
      ∧ vertexSchemaToZod nullableStrW =
          (vertexSchemaToZod (nullableStrW.setNullable none)).map ZodType.znullable
      ∧ accepts (ZodType.znullable (ZodType.zstring [])) JValue.null = true :=
  ⟨rfl, (c7_nullable nullableStrW).1 rfl, (c7_nullable nullableStrW).2.2.1 (ZodType.zstring [])⟩

/-- Witness for C8 at `format="date-time"` and `format="date"`. -/
theorem c8_datetime_format_witness :
    vertexSchemaToZod datetimeW = Except.ok (ZodType.zstring [StrCheck.datetime])
      ∧ accepts (ZodType.zstring [StrCheck.datetime]) (JValue.str ("2024-01-15T10:30:00Z")) = true
      ∧ accepts (ZodType.zstring [StrCheck.datetime]) (JValue.str ("not-a-datetime")) = false
      ∧ vertexSchemaToZod dateW = Except.ok (ZodType.zstring [])
      ∧ accepts (ZodType.zstring []) (JValue.str ("anything")) = true := by
  have hdt := (c8_datetime_format datetimeW (Or.inl rfl) rfl rfl).1 rfl
  have hd := (c8_datetime_format dateW (Or.inl rfl) rfl rfl).2 (by decide)
  exact ⟨hdt.1.trans rfl, hdt.2.2.1, hdt.2.2.2, hd.1.trans rfl, hd.2 ("anything")⟩

/-- Witness for C9 at a STRING node with a present-but-empty enum. -/
theorem c9_empty_enum_witness :
    vertexSchemaToZod emptyEnumW = vertexSchemaToZod (emptyEnumW.setEnum none)
      ∧ (vertexSchemaToZod emptyEnumW).isOk = true
      ∧ vertexSchemaToZod emptyEnumW = Except.ok (ZodType.zstring []) := by
  have h := c9_empty_enum emptyEnumW rfl
  have h2 := h.2 (Or.inl rfl) rfl
  exact ⟨h.1, h2.1, h2.2.1.trans rfl⟩

/-- Witness for C10 at a one-branch union node. -/
theorem c10_singleton_union_witness :
    vertexSchemaToZod singletonUnionW = Except.ok (ZodType.zunion [ZodType.zstring []])
      ∧ accepts (ZodType.zunion [ZodType.zstring []]) (JValue.str ("x"))
          = accepts (ZodType.zstring []) (JValue.str ("x")) := by
  have h := c10_singleton_union singletonUnionW strVS rfl
  exact ⟨h.1.trans rfl, h.2 (ZodType.zstring []) (JValue.str ("x"))⟩
